import Mathlib

/-!
Verification development for the tigrisdata/storage-go client library.

The Go source is shallowly embedded: option structs become Lean structures,
functional options become an inductive vocabulary of record transformers
applied by a left fold (mirroring the `for _, doer := range options {
doer(&o) }` loops), Go errors become an inductive `GoError` with an
`errorIs`-style sentinel search, and every network interaction is made
explicit as a trace of calls so that "no network call is attempted" and
"exactly these calls in this order" become provable statements.
-/

set_option maxHeartbeats 1000000

/-- Environment variables read by the two `defaults()` methods
(`os.Getenv` returns the empty string for an unset variable). -/
structure Env where
  tigrisStorageBucket : String := ""
  tigrisStorageAccessKeyID : String := ""
  tigrisStorageSecretAccessKey : String := ""
deriving Repr, DecidableEq

/-- Go error values as seen by `errors.Is`: named sentinels created by
`errors.New`, `fmt.Errorf("...: %w", err)` wrapping, `errors.Join`, and
opaque errors coming from the backing service or `errors.New` used inline. -/
inductive GoError where
  | sentinel (msg : String)
  | wrap (msg : String) (inner : GoError)
  | join (errs : List GoError)
  | basic (msg : String)

mutual

/-- The identity search performed by Go's `errors.Is(err, target)` for a
sentinel target: `err` matches if it is the sentinel itself or the sentinel
appears somewhere in its unwrap tree. -/
def errorIs : GoError → String → Bool
  | .sentinel m, t => m = t
  | .wrap _ inner, t => errorIs inner t
  | .join es, t => errorIsAny es t
  | .basic _, _ => false

/-- Helper for `errorIs` over the error list of an `errors.Join`. -/
def errorIsAny : List GoError → String → Bool
  | [], _ => false
  | e :: es, t => errorIs e t || errorIsAny es t

end

namespace Storage

/-- `GlobalEndpoint` constant from storage.go. -/
def GlobalEndpoint : String := "https://t3.storage.dev"

/-- `FlyEndpoint` constant from storage.go. -/
def FlyEndpoint : String := "https://fly.storage.tigris.dev"

/-- `storage.Options` from storage.go. -/
structure Options where
  BaseEndpoint : String
  Region : String
  UsePathStyle : Bool
  AccessKeyID : String
  SecretAccessKey : String
deriving Repr, DecidableEq

/-- `storage.Options.defaults()` from storage.go (the endpoint literal is
written inline there, equal to `GlobalEndpoint`). -/
def Options.defaults (env : Env) : Options where
  BaseEndpoint := "https://t3.storage.dev"
  Region := "auto"
  UsePathStyle := false
  AccessKeyID := env.tigrisStorageAccessKeyID
  SecretAccessKey := env.tigrisStorageSecretAccessKey

/-- The functional options exported by the `storage` package
(storage.go): each names one `storage.Option` constructor. -/
inductive OptionF where
  | withFlyEndpoint
  | withGlobalEndpoint
  | withEndpoint (endpoint : String)
  | withRegion (region : String)
  | withPathStyle (enabled : Bool)
  | withAccessKeypair (accessKeyID secretAccessKey : String)
deriving Repr, DecidableEq

/-- The record update performed by each `storage.Option` closure. -/
def applyOption : Options → OptionF → Options
  | o, .withFlyEndpoint => { o with BaseEndpoint := FlyEndpoint }
  | o, .withGlobalEndpoint => { o with BaseEndpoint := GlobalEndpoint }
  | o, .withEndpoint e => { o with BaseEndpoint := e }
  | o, .withRegion r => { o with Region := r }
  | o, .withPathStyle b => { o with UsePathStyle := b }
  | o, .withAccessKeypair k s => { o with AccessKeyID := k, SecretAccessKey := s }

/-- The option-resolution loop of `storage.New`:
`o := new(Options).defaults(); for _, doer := range options { doer(&o) }`. -/
def resolve (env : Env) (options : List OptionF) : Options :=
  options.foldl applyOption (Options.defaults env)

/-- The values written to `BaseEndpoint` by an option sequence, in order. -/
def endpointWrites (options : List OptionF) : List String :=
  options.filterMap fun
    | .withFlyEndpoint => some FlyEndpoint
    | .withGlobalEndpoint => some GlobalEndpoint
    | .withEndpoint e => some e
    | _ => none

/-- The values written to `Region` by an option sequence, in order. -/
def regionWrites (options : List OptionF) : List String :=
  options.filterMap fun
    | .withRegion r => some r
    | _ => none

/-- The values written to `UsePathStyle` by an option sequence, in order. -/
def pathStyleWrites (options : List OptionF) : List Bool :=
  options.filterMap fun
    | .withPathStyle b => some b
    | _ => none

/-- The values written to `AccessKeyID` by an option sequence, in order. -/
def accessKeyIDWrites (options : List OptionF) : List String :=
  options.filterMap fun
    | .withAccessKeypair k _ => some k
    | _ => none

/-- The values written to `SecretAccessKey` by an option sequence, in order. -/
def secretAccessKeyWrites (options : List OptionF) : List String :=
  options.filterMap fun
    | .withAccessKeypair _ s => some s
    | _ => none

end Storage

/-- Generic last-writer-wins lemma for a fold of record transformers: if a
projection of `step a b` is the value `wf b` writes (or the old projection
when `wf b` writes nothing), then after the whole fold the projection is the
last written value, or the initial one when the sequence never writes. -/
theorem foldl_lastWrite {α β γ : Type} (step : α → β → α) (proj : α → γ)
    (wf : β → Option γ)
    (compat : ∀ a b, proj (step a b) = (wf b).getD (proj a)) :
    ∀ (l : List β) (init : α),
      proj (l.foldl step init) = ((l.filterMap wf).getLast?).getD (proj init) := by
  intro l
  induction l with
  | nil => intro init; simp
  | cons b rest ih =>
    intro init
    rw [List.foldl_cons, ih, List.filterMap_cons]
    cases h : wf b with
    | none => simp [compat, h]
    | some v =>
      simp only [compat, h, Option.getD_some]
      cases hrest : (rest.filterMap wf) with
      | nil => simp
      | cons x xs => simp [List.getLast?_cons]

namespace SimpleStorage

/-- `simplestorage.Options` from simplestorage/options.go. -/
structure Options where
  BucketName : String
  AccessKeyID : String
  SecretAccessKey : String
  BaseEndpoint : String
  Region : String
  UsePathStyle : Bool
deriving Repr, DecidableEq

/-- `simplestorage.Options.defaults()` from simplestorage/options.go. -/
def Options.defaults (env : Env) : Options where
  BucketName := env.tigrisStorageBucket
  AccessKeyID := env.tigrisStorageAccessKeyID
  SecretAccessKey := env.tigrisStorageSecretAccessKey
  BaseEndpoint := Storage.GlobalEndpoint
  Region := "auto"
  UsePathStyle := false

/-- The functional options exported by the `simplestorage` package for
client creation (simplestorage/options.go): each names one
`simplestorage.Option` constructor. -/
inductive OptionF where
  | withBucket (bucketName : String)
  | withFlyEndpoint
  | withGlobalEndpoint
  | withEndpoint (endpoint : String)
  | withRegion (region : String)
  | withPathStyle (enabled : Bool)
  | withAccessKeypair (accessKeyID secretAccessKey : String)
deriving Repr, DecidableEq

/-- The record update performed by each `simplestorage.Option` closure. -/
def applyOption : Options → OptionF → Options
  | o, .withBucket b => { o with BucketName := b }
  | o, .withFlyEndpoint => { o with BaseEndpoint := Storage.FlyEndpoint }
  | o, .withGlobalEndpoint => { o with BaseEndpoint := Storage.GlobalEndpoint }
  | o, .withEndpoint e => { o with BaseEndpoint := e }
  | o, .withRegion r => { o with Region := r }
  | o, .withPathStyle b => { o with UsePathStyle := b }
  | o, .withAccessKeypair k s => { o with AccessKeyID := k, SecretAccessKey := s }

/-- The option-resolution loop of `simplestorage.New`:
`o := new(Options).defaults(); for _, doer := range options { doer(&o) }`. -/
def resolve (env : Env) (options : List OptionF) : Options :=
  options.foldl applyOption (Options.defaults env)

/-- The values written to `BucketName` by an option sequence, in order. -/
def bucketWrites (options : List OptionF) : List String :=
  options.filterMap fun
    | .withBucket b => some b
    | _ => none

/-- The values written to `BaseEndpoint` by an option sequence, in order. -/
def endpointWrites (options : List OptionF) : List String :=
  options.filterMap fun
    | .withFlyEndpoint => some Storage.FlyEndpoint
    | .withGlobalEndpoint => some Storage.GlobalEndpoint
    | .withEndpoint e => some e
    | _ => none

/-- The values written to `Region` by an option sequence, in order. -/
def regionWrites (options : List OptionF) : List String :=
  options.filterMap fun
    | .withRegion r => some r
    | _ => none

/-- The values written to `UsePathStyle` by an option sequence, in order. -/
def pathStyleWrites (options : List OptionF) : List Bool :=
  options.filterMap fun
    | .withPathStyle b => some b
    | _ => none

/-- The values written to `AccessKeyID` by an option sequence, in order. -/
def accessKeyIDWrites (options : List OptionF) : List String :=
  options.filterMap fun
    | .withAccessKeypair k _ => some k
    | _ => none

/-- The values written to `SecretAccessKey` by an option sequence, in order. -/
def secretAccessKeyWrites (options : List OptionF) : List String :=
  options.filterMap fun
    | .withAccessKeypair _ s => some s
    | _ => none

end SimpleStorage

/-- C1: for every option-function sequence passed to `storage.New` or
`simplestorage.New`, the resolved options value is the left fold of the
option functions over the defaults, and consequently each field of the
resolved value is the last value any option in the sequence wrote to that
field (or the default when none wrote it) — the last writer wins no matter
how many times the field was set earlier. -/
theorem C1_option_resolution_last_writer_wins (env : Env) :
    (∀ opts : List Storage.OptionF,
      Storage.resolve env opts = opts.foldl Storage.applyOption (Storage.Options.defaults env) ∧
      (Storage.resolve env opts).BaseEndpoint
        = (Storage.endpointWrites opts).getLast?.getD (Storage.Options.defaults env).BaseEndpoint ∧
      (Storage.resolve env opts).Region
        = (Storage.regionWrites opts).getLast?.getD (Storage.Options.defaults env).Region ∧
      (Storage.resolve env opts).UsePathStyle
        = (Storage.pathStyleWrites opts).getLast?.getD (Storage.Options.defaults env).UsePathStyle ∧
      (Storage.resolve env opts).AccessKeyID
        = (Storage.accessKeyIDWrites opts).getLast?.getD (Storage.Options.defaults env).AccessKeyID ∧
      (Storage.resolve env opts).SecretAccessKey
        = (Storage.secretAccessKeyWrites opts).getLast?.getD (Storage.Options.defaults env).SecretAccessKey) ∧
    (∀ opts : List SimpleStorage.OptionF,
      SimpleStorage.resolve env opts
        = opts.foldl SimpleStorage.applyOption (SimpleStorage.Options.defaults env) ∧
      (SimpleStorage.resolve env opts).BucketName
        = (SimpleStorage.bucketWrites opts).getLast?.getD (SimpleStorage.Options.defaults env).BucketName ∧
      (SimpleStorage.resolve env opts).BaseEndpoint
        = (SimpleStorage.endpointWrites opts).getLast?.getD (SimpleStorage.Options.defaults env).BaseEndpoint ∧
      (SimpleStorage.resolve env opts).Region
        = (SimpleStorage.regionWrites opts).getLast?.getD (SimpleStorage.Options.defaults env).Region ∧
      (SimpleStorage.resolve env opts).UsePathStyle
        = (SimpleStorage.pathStyleWrites opts).getLast?.getD (SimpleStorage.Options.defaults env).UsePathStyle ∧
      (SimpleStorage.resolve env opts).AccessKeyID
        = (SimpleStorage.accessKeyIDWrites opts).getLast?.getD (SimpleStorage.Options.defaults env).AccessKeyID ∧
      (SimpleStorage.resolve env opts).SecretAccessKey
        = (SimpleStorage.secretAccessKeyWrites opts).getLast?.getD (SimpleStorage.Options.defaults env).SecretAccessKey) := by
  constructor
  · intro opts
    refine ⟨rfl, ?_, ?_, ?_, ?_, ?_⟩ <;>
      exact foldl_lastWrite Storage.applyOption _ _
        (by intro a b; cases b <;> rfl) opts (Storage.Options.defaults env)
  · intro opts
    refine ⟨rfl, ?_, ?_, ?_, ?_, ?_, ?_⟩ <;>
      exact foldl_lastWrite SimpleStorage.applyOption _ _
        (by intro a b; cases b <;> rfl) opts (SimpleStorage.Options.defaults env)

namespace SimpleStorage

/-- The message of the `ErrNoBucketName` sentinel (simplestorage/client.go). -/
def errNoBucketNameMsg : String :=
  "bucket name not set: provide the TIGRIS_STORAGE_BUCKET environment variable or use WithBucket option"

/-- `simplestorage.ErrNoBucketName`, created by `errors.New`. -/
def ErrNoBucketName : GoError := .sentinel errNoBucketNameMsg

/-- Network interactions the simplestorage facade can perform, in the order
they are issued. `storageNew` stands for the delegation to `storage.New`
(and the AWS configuration loading inside it), the only step of client
construction that can reach outside the process. -/
inductive NetCall where
  | storageNew
  | listObjectsV2 (bucket : String)
  | deleteObject (bucket key : String)
  | deleteBucket (bucket : String)
  | listBuckets
  | headBucket (bucket : String)
  | createBucket (bucket : String)
  | presign (method bucket key : String) (expiry : Int)
deriving Repr, DecidableEq

/-- `simplestorage.New`: resolve the options, reject an empty bucket name
with `ErrNoBucketName` (joined by `errors.Join` and wrapped by
`fmt.Errorf("simplestorage: can't create client: %w", ...)`) before anything
else; only after that validation does it delegate to `storage.New`. The
success branch abstracts that delegation (and everything that can touch the
network) as the single `storageNew` trace entry. -/
def New (env : Env) (options : List OptionF) : Except GoError Options × List NetCall :=
  let o := resolve env options
  if o.BucketName = "" then
    (.error (.wrap "simplestorage: can't create client" (.join [ErrNoBucketName])), [])
  else
    (.ok o, [.storageNew])

/-- `simplestorage.ClientOptions` from simplestorage/client.go: the per-call
option set. The `S3Options` pass-through decorators are modelled by the
header pairs they add to the request (the vocabulary of the tigrisheaders
package, the only `func(*s3.Options)` constructors in this repository). -/
structure ClientOptions where
  BucketName : String
  S3Options : List (String × String)
  StartAfter : Option String
  MaxKeys : Option Int
  Delimiter : Option String
  Prefix : Option String
  PaginationToken : Option String
  ContentType : Option String
  ContentDisposition : Option String
deriving Repr, DecidableEq

/-- `simplestorage.ClientOptions.defaults(o Options)`: per-call options are
re-derived from the client-wide options, carrying over only the bucket. -/
def ClientOptions.defaults (o : Options) : ClientOptions where
  BucketName := o.BucketName
  S3Options := []
  StartAfter := none
  MaxKeys := none
  Delimiter := none
  Prefix := none
  PaginationToken := none
  ContentType := none
  ContentDisposition := none

/-- The per-call `simplestorage.ClientOption` constructors from
simplestorage/client.go. -/
inductive ClientOptionF where
  | overrideBucket (bucket : String)
  | withS3Options (opts : List (String × String))
  | withStartAfter (startAfter : String)
  | withMaxKeys (maxKeys : Int)
  | withDelimiter (delimiter : String)
  | withPrefix (p : String)
  | withPaginationToken (token : String)
  | withContentType (contentType : String)
  | withContentDisposition (disposition : String)
deriving Repr, DecidableEq

/-- The record update performed by each `simplestorage.ClientOption`. -/
def applyClientOption : ClientOptions → ClientOptionF → ClientOptions
  | o, .overrideBucket b => { o with BucketName := b }
  | o, .withS3Options opts => { o with S3Options := o.S3Options ++ opts }
  | o, .withStartAfter s => { o with StartAfter := some s }
  | o, .withMaxKeys m => { o with MaxKeys := some m }
  | o, .withDelimiter d => { o with Delimiter := some d }
  | o, .withPrefix p => { o with Prefix := some p }
  | o, .withPaginationToken t => { o with PaginationToken := some t }
  | o, .withContentType c => { o with ContentType := some c }
  | o, .withContentDisposition d => { o with ContentDisposition := some d }

/-- The per-call option-resolution loop
(`o := new(ClientOptions).defaults(c.options); for _, doer := range opts { doer(&o) }`). -/
def resolveCall (base : Options) (opts : List ClientOptionF) : ClientOptions :=
  opts.foldl applyClientOption (ClientOptions.defaults base)

/-- The three local rejections of `Client.PresignURL`, identified by cause. -/
inductive PresignError where
  | unsupportedMethod (method : String)
  | keyEmpty
  | invalidExpiry (expiry : Int)
deriving Repr, DecidableEq

/-- The observable outcome of a `PresignURL` call: the reported error (if
any), the per-call options value if resolution was reached, and the network
calls issued. -/
structure PresignOutcome where
  error : Option PresignError
  resolved : Option ClientOptions
  netCalls : List NetCall
deriving Repr, DecidableEq

/-- `Client.PresignURL` from simplestorage/presign.go: validates the method
(exactly "GET", "PUT" or "DELETE"), then the key (non-empty), then the
expiry (strictly positive), each rejection returning before the options are
resolved and before the presign client is created; only the success path
resolves options and issues the single presign interaction. -/
def presignURL (base : Options) (method key : String) (expiry : Int)
    (opts : List ClientOptionF) : PresignOutcome :=
  if method = "GET" ∨ method = "PUT" ∨ method = "DELETE" then
    if key = "" then
      { error := some .keyEmpty, resolved := none, netCalls := [] }
    else if expiry ≤ 0 then
      { error := some (.invalidExpiry expiry), resolved := none, netCalls := [] }
    else
      let o := resolveCall base opts
      { error := none, resolved := some o,
        netCalls := [.presign method o.BucketName key expiry] }
  else
    { error := some (.unsupportedMethod method), resolved := none, netCalls := [] }

end SimpleStorage

/-- C5: whenever the resolved options leave the bucket name empty (neither
the TIGRIS_STORAGE_BUCKET environment variable nor a WithBucket-style option
supplied a non-empty name), `simplestorage.New` fails with an error that
`errors.Is`-matches the `ErrNoBucketName` sentinel, and no network call is
attempted before that failure. -/
theorem C5_new_empty_bucket_fails_no_network (env : Env)
    (opts : List SimpleStorage.OptionF)
    (h : (SimpleStorage.resolve env opts).BucketName = "") :
    (∃ e, (SimpleStorage.New env opts).1 = .error e ∧
        errorIs e SimpleStorage.errNoBucketNameMsg = true) ∧
    (SimpleStorage.New env opts).2 = [] := by
  refine ⟨⟨.wrap "simplestorage: can't create client"
      (.join [SimpleStorage.ErrNoBucketName]), ?_, ?_⟩, ?_⟩
  · simp [SimpleStorage.New, h]
  · simp [errorIs, errorIsAny, SimpleStorage.ErrNoBucketName]
  · simp [SimpleStorage.New, h]

/-- Closed witness for C5: with an empty environment and no options, client
construction fails with the sentinel in the error chain and an empty trace. -/
theorem C5_witness :
    (∃ e, (SimpleStorage.New {} []).1 = .error e ∧
        errorIs e SimpleStorage.errNoBucketNameMsg = true) ∧
    (SimpleStorage.New {} []).2 = [] :=
  C5_new_empty_bucket_fails_no_network {} [] (by decide)

/-- C2: `PresignURL` rejects any method other than exactly "GET", "PUT" or
"DELETE" with the unsupported-method error, an empty key with the
key-cannot-be-empty error, and a non-positive expiry with the invalid-expiry
error; each rejection reports exactly one cause chosen in the fixed order
method, then key, then expiry, and happens with no network call issued and
before the per-call options are resolved; valid inputs are not rejected. -/
theorem C2_presign_validation (base : SimpleStorage.Options)
    (method key : String) (expiry : Int)
    (opts : List SimpleStorage.ClientOptionF) :
    (¬(method = "GET" ∨ method = "PUT" ∨ method = "DELETE") →
      SimpleStorage.presignURL base method key expiry opts
        = { error := some (.unsupportedMethod method), resolved := none, netCalls := [] }) ∧
    ((method = "GET" ∨ method = "PUT" ∨ method = "DELETE") → key = "" →
      SimpleStorage.presignURL base method key expiry opts
        = { error := some .keyEmpty, resolved := none, netCalls := [] }) ∧
    ((method = "GET" ∨ method = "PUT" ∨ method = "DELETE") → key ≠ "" → expiry ≤ 0 →
      SimpleStorage.presignURL base method key expiry opts
        = { error := some (.invalidExpiry expiry), resolved := none, netCalls := [] }) ∧
    ((method = "GET" ∨ method = "PUT" ∨ method = "DELETE") → key ≠ "" → 0 < expiry →
      (SimpleStorage.presignURL base method key expiry opts).error = none) := by
  refine ⟨?_, ?_, ?_, ?_⟩
  · intro hm
    simp [SimpleStorage.presignURL, hm]
  · intro hm hk
    simp [SimpleStorage.presignURL, hm, hk]
  · intro hm hk he
    simp [SimpleStorage.presignURL, hm, hk, he]
  · intro hm hk he
    simp [SimpleStorage.presignURL, hm, hk, Int.not_le.mpr he]

/-- Closed witness for C2: each of the three rejections (and the acceptance
case) observed on concrete inputs — "PATCH" is rejected for its method even
with an empty key, an empty key is rejected under "GET", a zero expiry is
rejected once method and key are valid, and a fully valid call reports no
error. -/
theorem C2_witness :
    (SimpleStorage.presignURL (SimpleStorage.Options.defaults {}) "PATCH" "" 0 []
      = { error := some (.unsupportedMethod "PATCH"), resolved := none, netCalls := [] }) ∧
    (SimpleStorage.presignURL (SimpleStorage.Options.defaults {}) "GET" "" 900 []
      = { error := some .keyEmpty, resolved := none, netCalls := [] }) ∧
    (SimpleStorage.presignURL (SimpleStorage.Options.defaults {}) "GET" "a.txt" 0 []
      = { error := some (.invalidExpiry 0), resolved := none, netCalls := [] }) ∧
    (SimpleStorage.presignURL (SimpleStorage.Options.defaults {}) "GET" "a.txt" 900 []).error
      = none := by
  refine ⟨?_, ?_, ?_, ?_⟩
  · exact (C2_presign_validation _ "PATCH" "" 0 []).1 (by decide)
  · exact (C2_presign_validation _ "GET" "" 900 []).2.1 (by decide) rfl
  · exact (C2_presign_validation _ "GET" "a.txt" 0 []).2.2.1 (by decide) (by decide) (by decide)
  · exact (C2_presign_validation _ "GET" "a.txt" 900 []).2.2.2 (by decide) (by decide) (by decide)

namespace SimpleStorage

/-- `lower[T any](p *T, defaultVal T) T` from the simplestorage package:
dereference the pointer, or the default when it is nil. -/
def lower {α : Type} (p : Option α) (defaultVal : α) : α :=
  p.getD defaultVal

/-- `raise[T comparable](v T) *T` from the simplestorage package: a pointer
to `v`, or nil when `v` is the zero value of its type (the zero value is
passed explicitly here, standing for Go's `var zero T`). -/
def raise {α : Type} [DecidableEq α] (zero v : α) : Option α :=
  if v = zero then none else some v

/-- `simplestorage.Object`: metadata (and body) for one stored object. The
body handle is modelled as optional opaque content; `LastModified` is an
integer timestamp. -/
structure Object where
  Bucket : String := ""
  Key : String := ""
  ContentType : String := ""
  ContentDisposition : String := ""
  Etag : String := ""
  Version : String := ""
  Size : Int := 0
  LastModified : Int := 0
  Metadata : List (String × String) := []
  URL : String := ""
  Body : Option String := none
deriving Repr, DecidableEq

/-- The fields of the outbound `s3.PutObjectInput` built by `Client.Put`
(pointer-typed fields are `Option`s; `aws.String` always yields a present
value, `raise` elides zero values). -/
structure PutObjectInput where
  Bucket : Option String
  Key : Option String
  Body : Option String
  ContentType : Option String
  ContentLength : Option Int
deriving Repr, DecidableEq

/-- The outbound request constructed by `Client.Put` for a resolved per-call
options value `o` and object record `obj`. -/
def putRequest (o : ClientOptions) (obj : Object) : PutObjectInput where
  Bucket := some o.BucketName
  Key := some obj.Key
  Body := obj.Body
  ContentType := raise "" obj.ContentType
  ContentLength := raise 0 obj.Size

/-- `Client.Put`: resolve the per-call options from the client options, then
build the outbound request. -/
def Put (base : Options) (obj : Object) (opts : List ClientOptionF) : PutObjectInput :=
  putRequest (resolveCall base opts) obj

end SimpleStorage

/-- C6: the outbound request of `Put` carries no content-type field exactly
when the object record's content-type is the empty string and no
content-length field exactly when its size is zero (zero-value elision), and
carries exactly the given values otherwise. -/
theorem C6_put_zero_value_elision (base : SimpleStorage.Options)
    (obj : SimpleStorage.Object) (opts : List SimpleStorage.ClientOptionF) :
    ((SimpleStorage.Put base obj opts).ContentType = none ↔ obj.ContentType = "") ∧
    (obj.ContentType ≠ "" →
      (SimpleStorage.Put base obj opts).ContentType = some obj.ContentType) ∧
    ((SimpleStorage.Put base obj opts).ContentLength = none ↔ obj.Size = 0) ∧
    (obj.Size ≠ 0 →
      (SimpleStorage.Put base obj opts).ContentLength = some obj.Size) := by
  refine ⟨?_, ?_, ?_, ?_⟩
  · constructor
    · intro h
      by_contra hne
      simp [SimpleStorage.Put, SimpleStorage.putRequest, SimpleStorage.raise, hne] at h
    · intro h
      simp [SimpleStorage.Put, SimpleStorage.putRequest, SimpleStorage.raise, h]
  · intro h
    simp [SimpleStorage.Put, SimpleStorage.putRequest, SimpleStorage.raise, h]
  · constructor
    · intro h
      by_contra hne
      simp [SimpleStorage.Put, SimpleStorage.putRequest, SimpleStorage.raise, hne] at h
    · intro h
      simp [SimpleStorage.Put, SimpleStorage.putRequest, SimpleStorage.raise, h]
  · intro h
    simp [SimpleStorage.Put, SimpleStorage.putRequest, SimpleStorage.raise, h]

/-- Closed witness for C6: a record with empty content-type and zero size
yields a request with both fields elided, and a record with concrete values
carries them verbatim. -/
theorem C6_witness :
    ((SimpleStorage.Put (SimpleStorage.Options.defaults {})
        { Key := "a.txt" } []).ContentType = none) ∧
    ((SimpleStorage.Put (SimpleStorage.Options.defaults {})
        { Key := "a.txt" } []).ContentLength = none) ∧
    ((SimpleStorage.Put (SimpleStorage.Options.defaults {})
        { Key := "a.txt", ContentType := "text/plain", Size := 5 } []).ContentType
      = some "text/plain") ∧
    ((SimpleStorage.Put (SimpleStorage.Options.defaults {})
        { Key := "a.txt", ContentType := "text/plain", Size := 5 } []).ContentLength
      = some 5) := by
  refine ⟨?_, ?_, ?_, ?_⟩
  · exact (C6_put_zero_value_elision _ { Key := "a.txt" } []).1.mpr rfl
  · exact (C6_put_zero_value_elision _ { Key := "a.txt" } []).2.2.1.mpr rfl
  · exact (C6_put_zero_value_elision _
      { Key := "a.txt", ContentType := "text/plain", Size := 5 } []).2.1 (by decide)
  · exact (C6_put_zero_value_elision _
      { Key := "a.txt", ContentType := "text/plain", Size := 5 } []).2.2.2 (by decide)

namespace SimpleStorage

/-- One entry of the `Contents` of an `s3.ListObjectsV2Output` (all fields
pointer-typed in the SDK). -/
structure RespObject where
  Key : Option String := none
  ETag : Option String := none
  Size : Option Int := none
  LastModified : Option Int := none
deriving Repr, DecidableEq

/-- The fields of `s3.ListObjectsV2Output` consumed by `Client.List`. -/
structure ListObjectsV2Output where
  Contents : List RespObject := []
  IsTruncated : Option Bool := none
  NextContinuationToken : Option String := none
deriving Repr, DecidableEq

/-- `simplestorage.ListResult`. -/
structure ListResult where
  Items : List Object
  NextToken : String
  HasMore : Bool
deriving Repr, DecidableEq

/-- The response translation of `Client.List`: `HasMore :=
lower(resp.IsTruncated, false)`, `NextToken :=
lower(resp.NextContinuationToken, "")`, and one `Object` per `Contents`
entry. -/
def listObjectsTransform (o : ClientOptions) (resp : ListObjectsV2Output) : ListResult where
  Items := resp.Contents.map fun obj =>
    { Bucket := o.BucketName
      Key := lower obj.Key ""
      Etag := lower obj.ETag ""
      Size := lower obj.Size 0
      LastModified := lower obj.LastModified 0 }
  NextToken := lower resp.NextContinuationToken ""
  HasMore := lower resp.IsTruncated false

/-- One entry of the `Buckets` of an `s3.ListBucketsOutput`. -/
structure RespBucket where
  Name : Option String := none
  CreationDate : Option Int := none
deriving Repr, DecidableEq

/-- The fields of `s3.ListBucketsOutput` consumed by `Client.ListBuckets`
and `Client.ListBucketSnapshots`. -/
structure ListBucketsOutput where
  Buckets : List RespBucket := []
  ContinuationToken : Option String := none
deriving Repr, DecidableEq

/-- `simplestorage.BucketInfo`. -/
structure BucketInfo where
  Name : String := ""
  Created : Int := 0
  SnapshotsEnabled : Bool := false
  IsForkParent : Bool := false
  SourceBucket : String := ""
  SourceSnapshot : String := ""
deriving Repr, DecidableEq

/-- `simplestorage.BucketList`. -/
structure BucketList where
  Buckets : List BucketInfo
  NextToken : String
  Truncated : Bool
deriving Repr, DecidableEq

/-- The `BucketInfo` entries built by the loop of `Client.ListBuckets`: one
per response bucket, via the unchecked `*b.Name` dereference, which panics
on a nil name — the panic is modelled by `none`. -/
def bucketInfosOfResp : List RespBucket → Option (List BucketInfo)
  | [] => some []
  | b :: rest =>
    match b.Name with
    | none => none
    | some n =>
      match bucketInfosOfResp rest with
      | none => none
      | some bs => some ({ Name := n, Created := lower b.CreationDate 0 } :: bs)

/-- The response translation of `Client.ListBuckets`: `Truncated :=
resp.ContinuationToken != nil`, `NextToken` copied from the token when
present (and left at its zero value otherwise), and one `BucketInfo` per
response bucket. -/
def listBucketsTransform (resp : ListBucketsOutput) : Option BucketList :=
  match bucketInfosOfResp resp.Buckets with
  | none => none
  | some bs =>
    some
      { Buckets := bs
        Truncated := resp.ContinuationToken.isSome
        NextToken := lower resp.ContinuationToken "" }

end SimpleStorage

/-- C3 counterexample: the truncation flag and the continuation token are
copied independently from the backing response, so the claimed equivalence
"truncated ⟺ token non-empty" fails on concrete responses: a `List`
response with `IsTruncated = true` and no token yields `HasMore = true` with
an empty `NextToken`, and a `ListBuckets` response carrying an empty-string
token yields `Truncated = true` with an empty `NextToken`. -/
theorem C3_counterexample :
    ((SimpleStorage.listObjectsTransform
        (SimpleStorage.ClientOptions.defaults (SimpleStorage.Options.defaults {}))
        { Contents := [], IsTruncated := some true,
          NextContinuationToken := none }).HasMore = true ∧
      (SimpleStorage.listObjectsTransform
        (SimpleStorage.ClientOptions.defaults (SimpleStorage.Options.defaults {}))
        { Contents := [], IsTruncated := some true,
          NextContinuationToken := none }).NextToken = "") ∧
    (SimpleStorage.listBucketsTransform { Buckets := [], ContinuationToken := some "" }
      = some { Buckets := [], NextToken := "", Truncated := true }) := by
  decide

/-- C3 amended: `List` copies `HasMore` from the response's `IsTruncated`
flag (false when absent) and `NextToken` from its `NextContinuationToken`
(empty when absent), and `ListBuckets` sets `Truncated` exactly when the
response carries a continuation token; therefore "truncated ⟺ non-empty
token" holds for every backing response whose truncation flag is set exactly
when a non-empty token is present (for `ListBuckets`: whose token, when
present, is non-empty); an empty backing-service page yields an empty
sequence with the flag false and an empty token. -/
theorem C3_amended_truncation_iff (o : SimpleStorage.ClientOptions)
    (resp : SimpleStorage.ListObjectsV2Output)
    (respB : SimpleStorage.ListBucketsOutput) :
    ((resp.IsTruncated.getD false = true ↔ resp.NextContinuationToken.getD "" ≠ "") →
      ((SimpleStorage.listObjectsTransform o resp).HasMore = true ↔
        (SimpleStorage.listObjectsTransform o resp).NextToken ≠ "")) ∧
    ((∀ t, respB.ContinuationToken = some t → t ≠ "") →
      ∀ bl, SimpleStorage.listBucketsTransform respB = some bl →
        (bl.Truncated = true ↔ bl.NextToken ≠ "")) ∧
    (SimpleStorage.listObjectsTransform o {}
      = { Items := [], NextToken := "", HasMore := false }) ∧
    (SimpleStorage.listBucketsTransform {}
      = some { Buckets := [], NextToken := "", Truncated := false }) := by
  refine ⟨?_, ?_, ?_, ?_⟩
  · intro hwf
    simpa [SimpleStorage.listObjectsTransform, SimpleStorage.lower] using hwf
  · intro hwf bl hbl
    have htr : bl.Truncated = respB.ContinuationToken.isSome ∧
        bl.NextToken = respB.ContinuationToken.getD "" := by
      unfold SimpleStorage.listBucketsTransform at hbl
      cases hbs : SimpleStorage.bucketInfosOfResp respB.Buckets with
      | none => rw [hbs] at hbl; exact absurd hbl (by simp)
      | some bs =>
        rw [hbs] at hbl
        simp only [Option.some_inj] at hbl
        subst hbl
        exact ⟨rfl, rfl⟩
    obtain ⟨h1, h2⟩ := htr
    rw [h1, h2]
    cases ht : respB.ContinuationToken with
    | none => simp
    | some t => simpa using hwf t ht
  · rfl
  · rfl

/-- Closed witness for C3 amended: a well-formed truncated `List` response
(flag set, non-empty token) satisfies the equivalence, as does a
`ListBuckets` response with a non-empty token. -/
theorem C3_amended_witness :
    ((SimpleStorage.listObjectsTransform
        (SimpleStorage.ClientOptions.defaults (SimpleStorage.Options.defaults {}))
        { Contents := [], IsTruncated := some true,
          NextContinuationToken := some "tok" }).HasMore = true ↔
      (SimpleStorage.listObjectsTransform
        (SimpleStorage.ClientOptions.defaults (SimpleStorage.Options.defaults {}))
        { Contents := [], IsTruncated := some true,
          NextContinuationToken := some "tok" }).NextToken ≠ "") ∧
    ∀ bl, SimpleStorage.listBucketsTransform
        { Buckets := [], ContinuationToken := some "tok" } = some bl →
      (bl.Truncated = true ↔ bl.NextToken ≠ "") := by
  constructor
  · exact (C3_amended_truncation_iff _ _
      { Buckets := [], ContinuationToken := some "tok" }).1 (by decide)
  · exact (C3_amended_truncation_iff
      (SimpleStorage.ClientOptions.defaults (SimpleStorage.Options.defaults {}))
      {} _).2.1 (by intro t ht; cases ht; decide)

namespace SimpleStorage

/-- `simplestorage.BucketOptions` from simplestorage/options. The
`ForceDelete` field is read by `DeleteBucket` (`if o.ForceDelete`); its
declaration and the `WithForceDelete()` option are not among the provided
source files but are documented verbatim in the repository CHANGELOG
("ForceDelete bool — Force delete non-empty bucket"). -/
structure BucketOptions where
  EnableSnapshot : Bool
  SnapshotVersion : String
  Region : String
  MaxKeys : Option Int
  ContinuationToken : Option String
  S3Options : List (String × String)
  ForceDelete : Bool
deriving Repr, DecidableEq

/-- `simplestorage.BucketOptions.defaults()`. -/
def BucketOptions.defaults : BucketOptions where
  EnableSnapshot := false
  SnapshotVersion := ""
  Region := ""
  MaxKeys := none
  ContinuationToken := none
  S3Options := []
  ForceDelete := false

/-- The `simplestorage.BucketOption` constructors. `withForceDelete` is the
CHANGELOG-documented `WithForceDelete()` used by `DeleteBucket`'s force
path. -/
inductive BucketOptionF where
  | withEnableSnapshot
  | withSnapshotVersion (version : String)
  | withBucketRegion (region : String)
  | withListLimit (limit : Int)
  | withListToken (token : String)
  | withForceDelete
deriving Repr, DecidableEq

/-- The record update performed by each `simplestorage.BucketOption`
(tigrisheaders decorators are recorded as the header pairs they add). -/
def applyBucketOption : BucketOptions → BucketOptionF → BucketOptions
  | o, .withEnableSnapshot =>
    { o with EnableSnapshot := true,
             S3Options := o.S3Options ++ [("X-Tigris-Enable-Snapshot", "true")] }
  | o, .withSnapshotVersion v =>
    { o with SnapshotVersion := v,
             S3Options := o.S3Options ++ [("X-Tigris-Snapshot-Version", v)] }
  | o, .withBucketRegion r =>
    { o with Region := r, S3Options := o.S3Options ++ [("X-Tigris-Regions", r)] }
  | o, .withListLimit n => { o with MaxKeys := some n }
  | o, .withListToken t => { o with ContinuationToken := some t }
  | o, .withForceDelete => { o with ForceDelete := true }

/-- The bucket-option resolution loop
(`o := new(BucketOptions).defaults(); for _, doer := range opts { doer(&o) }`). -/
def resolveBucketOpts (opts : List BucketOptionF) : BucketOptions :=
  opts.foldl applyBucketOption BucketOptions.defaults

/-- The backing-service behaviour visible to the bucket-management calls:
what one list call returns (the keys of the bucket's objects, in the order
the service lists them), and how each object-delete and bucket-delete call
ends. -/
structure Backing where
  listObjectsV2 : String → Except GoError (List String)
  deleteObject : String → String → Except GoError Unit
  deleteBucket : String → Except GoError Unit

/-- The delete loop of `Client.emptyBucket` (`for _, obj := range
listResp.Contents { ... DeleteObject ... }`): issues one delete call per
key in order, stopping at the first failure. Returns the calls issued and
the result. -/
def deleteKeys (bk : Backing) (bucket : String) :
    List String → List NetCall × Except GoError Unit
  | [] => ([], .ok ())
  | k :: rest =>
    match bk.deleteObject bucket k with
    | .error e =>
      ([.deleteObject bucket k], .error (.wrap ("can't delete object " ++ k) e))
    | .ok _ =>
      let r := deleteKeys bk bucket rest
      (.deleteObject bucket k :: r.1, r.2)

/-- `Client.emptyBucket`: one `ListObjectsV2` call, then one delete per
returned object. -/
def emptyBucket (bk : Backing) (bucket : String) : List NetCall × Except GoError Unit :=
  match bk.listObjectsV2 bucket with
  | .error e => ([.listObjectsV2 bucket], .error (.wrap "can't list objects" e))
  | .ok keys =>
    let r := deleteKeys bk bucket keys
    (.listObjectsV2 bucket :: r.1, r.2)

/-- `Client.DeleteBucket`: empty-name check, option resolution, the
`emptyBucket` pass when `ForceDelete` is set (aborting on its error before
any bucket-delete call), then the bucket-delete call itself. -/
def DeleteBucket (bk : Backing) (bucket : String) (opts : List BucketOptionF) :
    List NetCall × Except GoError Unit :=
  if bucket = "" then
    ([], .error (.basic "simplestorage: bucket name required for bucket management operations"))
  else
    let o := resolveBucketOpts opts
    if o.ForceDelete then
      let r := emptyBucket bk bucket
      match r.2 with
      | .error e =>
        (r.1, .error (.wrap ("simplestorage: can't empty bucket " ++ bucket) e))
      | .ok _ =>
        match bk.deleteBucket bucket with
        | .error e =>
          (r.1 ++ [.deleteBucket bucket],
            .error (.wrap ("simplestorage: can't delete bucket " ++ bucket) e))
        | .ok _ => (r.1 ++ [.deleteBucket bucket], .ok ())
    else
      match bk.deleteBucket bucket with
      | .error e =>
        ([.deleteBucket bucket],
          .error (.wrap ("simplestorage: can't delete bucket " ++ bucket) e))
      | .ok _ => ([.deleteBucket bucket], .ok ())

end SimpleStorage

/-- When every per-key delete succeeds, the delete loop issues exactly one
delete per key, in list order, and succeeds. -/
theorem deleteKeys_all_ok (bk : SimpleStorage.Backing) (bucket : String)
    (keys : List String) (h : ∀ k ∈ keys, bk.deleteObject bucket k = .ok ()) :
    SimpleStorage.deleteKeys bk bucket keys
      = (keys.map (SimpleStorage.NetCall.deleteObject bucket), .ok ()) := by
  induction keys with
  | nil => rfl
  | cons k rest ih =>
    have hk : bk.deleteObject bucket k = .ok () := h k (by simp)
    have hrest := ih (fun k2 hk2 => h k2 (by simp [hk2]))
    simp [SimpleStorage.deleteKeys, hk, hrest]

/-- The delete loop stops at the first failing key: it issues exactly the
deletes for the preceding keys plus the failing one, and reports an error. -/
theorem deleteKeys_first_failure (bk : SimpleStorage.Backing) (bucket : String)
    (pre : List String) (k : String) (post : List String) (e : GoError)
    (hpre : ∀ k2 ∈ pre, bk.deleteObject bucket k2 = .ok ())
    (hk : bk.deleteObject bucket k = .error e) :
    SimpleStorage.deleteKeys bk bucket (pre ++ k :: post)
      = (pre.map (SimpleStorage.NetCall.deleteObject bucket)
          ++ [.deleteObject bucket k],
        .error (.wrap ("can't delete object " ++ k) e)) := by
  induction pre with
  | nil => simp [SimpleStorage.deleteKeys, hk]
  | cons p rest ih =>
    have hp : bk.deleteObject bucket p = .ok () := hpre p (by simp)
    have hrest := ih (fun k2 hk2 => hpre k2 (by simp [hk2]))
    simp [SimpleStorage.deleteKeys, hp, hrest]

/-- If the delete loop succeeds, every per-key delete succeeded. -/
theorem deleteKeys_ok_all (bk : SimpleStorage.Backing) (bucket : String)
    (keys : List String)
    (h : (SimpleStorage.deleteKeys bk bucket keys).2 = .ok ()) :
    ∀ k ∈ keys, bk.deleteObject bucket k = .ok () := by
  induction keys with
  | nil => intro k hk; cases hk
  | cons k0 rest ih =>
    intro k hk
    cases hd : bk.deleteObject bucket k0 with
    | error e =>
      rw [show SimpleStorage.deleteKeys bk bucket (k0 :: rest)
          = ([.deleteObject bucket k0],
            .error (.wrap ("can't delete object " ++ k0) e)) by
        simp [SimpleStorage.deleteKeys, hd]] at h
      cases h
    | ok u =>
      have hd0 : bk.deleteObject bucket k0 = .ok () := by cases u; exact hd
      rw [show SimpleStorage.deleteKeys bk bucket (k0 :: rest)
          = (.deleteObject bucket k0 :: (SimpleStorage.deleteKeys bk bucket rest).1,
            (SimpleStorage.deleteKeys bk bucket rest).2) by
        simp [SimpleStorage.deleteKeys, hd0]] at h
      rcases List.mem_cons.mp hk with hk0 | hkr
      · rw [hk0]; exact hd0
      · exact ih h k hkr

/-- The delete loop never issues a bucket-delete call. -/
theorem deleteKeys_no_deleteBucket (bk : SimpleStorage.Backing) (bucket b2 : String)
    (keys : List String) :
    SimpleStorage.NetCall.deleteBucket b2 ∉ (SimpleStorage.deleteKeys bk bucket keys).1 := by
  induction keys with
  | nil => simp [SimpleStorage.deleteKeys]
  | cons k rest ih =>
    cases hd : bk.deleteObject bucket k with
    | error e => simp [SimpleStorage.deleteKeys, hd]
    | ok u => cases u; simp [SimpleStorage.deleteKeys, hd]; exact ih

/-- C4: with the force-delete option resolved, `DeleteBucket` on a bucket
the backing service lists as holding the keys `keys` issues exactly one
list call, then one delete per key in the listed order, then the final
bucket-delete call, succeeding only if every call succeeds; the first
failing object delete aborts the sequence with an error and the
bucket-delete call is never issued. -/
theorem C4_force_delete_sequence (bk : SimpleStorage.Backing) (bucket : String)
    (opts : List SimpleStorage.BucketOptionF) (keys : List String)
    (hb : bucket ≠ "")
    (hforce : (SimpleStorage.resolveBucketOpts opts).ForceDelete = true)
    (hlist : bk.listObjectsV2 bucket = .ok keys) :
    ((∀ k ∈ keys, bk.deleteObject bucket k = .ok ()) →
      (SimpleStorage.DeleteBucket bk bucket opts).1
        = .listObjectsV2 bucket ::
            (keys.map (SimpleStorage.NetCall.deleteObject bucket)
              ++ [.deleteBucket bucket]) ∧
      ((SimpleStorage.DeleteBucket bk bucket opts).2 = .ok () ↔
        bk.deleteBucket bucket = .ok ())) ∧
    (∀ pre k post, keys = pre ++ k :: post →
      (∀ k2 ∈ pre, bk.deleteObject bucket k2 = .ok ()) →
      ∀ e, bk.deleteObject bucket k = .error e →
        (SimpleStorage.DeleteBucket bk bucket opts).1
          = .listObjectsV2 bucket ::
              (pre.map (SimpleStorage.NetCall.deleteObject bucket)
                ++ [.deleteObject bucket k]) ∧
        (∃ e2, (SimpleStorage.DeleteBucket bk bucket opts).2 = .error e2) ∧
        SimpleStorage.NetCall.deleteBucket bucket
          ∉ (SimpleStorage.DeleteBucket bk bucket opts).1) ∧
    ((SimpleStorage.DeleteBucket bk bucket opts).2 = .ok () →
      ∀ k ∈ keys, bk.deleteObject bucket k = .ok ()) := by
  refine ⟨?_, ?_, ?_⟩
  · intro hall
    have hdk := deleteKeys_all_ok bk bucket keys hall
    cases hdb : bk.deleteBucket bucket with
    | error e =>
      constructor
      · simp [SimpleStorage.DeleteBucket, hb, hforce, SimpleStorage.emptyBucket,
          hlist, hdk, hdb]
      · constructor
        · intro hok
          rw [show (SimpleStorage.DeleteBucket bk bucket opts).2
              = .error (.wrap ("simplestorage: can't delete bucket " ++ bucket) e) by
            simp [SimpleStorage.DeleteBucket, hb, hforce, SimpleStorage.emptyBucket,
              hlist, hdk, hdb]] at hok
          cases hok
        · intro hok; cases hok
    | ok u =>
      cases u
      constructor
      · simp [SimpleStorage.DeleteBucket, hb, hforce, SimpleStorage.emptyBucket,
          hlist, hdk, hdb]
      · constructor
        · intro _; rfl
        · intro _
          simp [SimpleStorage.DeleteBucket, hb, hforce, SimpleStorage.emptyBucket,
            hlist, hdk, hdb]
  · intro pre k post hkeys hpre e hke
    have hdk := deleteKeys_first_failure bk bucket pre k post e hpre hke
    subst hkeys
    refine ⟨?_, ⟨?_, ?_⟩, ?_⟩
    · simp [SimpleStorage.DeleteBucket, hb, hforce, SimpleStorage.emptyBucket,
        hlist, hdk]
    · exact .wrap ("simplestorage: can't empty bucket " ++ bucket)
        (.wrap ("can't delete object " ++ k) e)
    · simp [SimpleStorage.DeleteBucket, hb, hforce, SimpleStorage.emptyBucket,
        hlist, hdk]
    · simp [SimpleStorage.DeleteBucket, hb, hforce, SimpleStorage.emptyBucket,
        hlist, hdk]
  · intro hok
    cases hr : (SimpleStorage.deleteKeys bk bucket keys).2 with
    | ok u => cases u; exact deleteKeys_ok_all bk bucket keys hr
    | error e =>
      rw [show (SimpleStorage.DeleteBucket bk bucket opts).2
          = .error (.wrap ("simplestorage: can't empty bucket " ++ bucket) e) by
        simp [SimpleStorage.DeleteBucket, hb, hforce, SimpleStorage.emptyBucket,
          hlist, hr]] at hok
      cases hok

/-- Closed witness for C4: a backing service listing two objects whose
deletes both succeed yields the trace list, delete "a", delete "b",
delete-bucket, and the overall call succeeds. -/
theorem C4_witness :
    (SimpleStorage.DeleteBucket
        { listObjectsV2 := fun _ => .ok ["a", "b"],
          deleteObject := fun _ _ => .ok (),
          deleteBucket := fun _ => .ok () }
        "docs" [.withForceDelete]).1
      = [.listObjectsV2 "docs", .deleteObject "docs" "a", .deleteObject "docs" "b",
          .deleteBucket "docs"] ∧
    (SimpleStorage.DeleteBucket
        { listObjectsV2 := fun _ => .ok ["a", "b"],
          deleteObject := fun _ _ => .ok (),
          deleteBucket := fun _ => .ok () }
        "docs" [.withForceDelete]).2 = .ok () := by
  have h := (C4_force_delete_sequence
      { listObjectsV2 := fun _ => .ok ["a", "b"],
        deleteObject := fun _ _ => .ok (),
        deleteBucket := fun _ => .ok () }
      "docs" [.withForceDelete] ["a", "b"]
      (by decide) rfl rfl).1 (fun k _ => rfl)
  exact ⟨h.1, h.2.mpr rfl⟩

namespace Storage

/-- `storage.HeadBucketForkOrSnapshotOutput` from client.go: the four
fork/snapshot fields extracted from the custom response headers. -/
structure HeadBucketForkOrSnapshotOutput where
  SnapshotsEnabled : Bool
  SourceBucket : String
  SourceBucketSnapshot : String
  IsForkParent : Bool
deriving Repr, DecidableEq

end Storage

namespace SimpleStorage

/-- `Client.GetBucketInfo` from simplestorage/buckets.go, as a function of
the outcome of the underlying `HeadBucketForkOrSnapshot` metadata fetch:
empty-name check, then the fetch; a successful fetch populates the four
fork/snapshot fields, any fetch error is dropped and a name-only record is
returned instead. -/
def GetBucketInfo (bucket : String)
    (fetch : Except GoError Storage.HeadBucketForkOrSnapshotOutput) :
    Except GoError BucketInfo :=
  if bucket = "" then
    .error (.basic "simplestorage: bucket name required for bucket management operations")
  else
    match fetch with
    | .ok t =>
      .ok { Name := bucket
            SnapshotsEnabled := t.SnapshotsEnabled
            IsForkParent := t.IsForkParent
            SourceBucket := t.SourceBucket
            SourceSnapshot := t.SourceBucketSnapshot }
    | .error _ => .ok { Name := bucket }

/-- `simplestorage.SnapshotInfo`. -/
structure SnapshotInfo where
  Name : String
  Version : String
  Created : Int
  Bucket : String
deriving Repr, DecidableEq

/-- `simplestorage.SnapshotList`. -/
structure SnapshotList where
  Snapshots : List SnapshotInfo
  Bucket : String
deriving Repr, DecidableEq

/-- `Client.ListBucketSnapshots` from simplestorage/buckets.go, as a
function of the annotated `ListBuckets` call's outcome: empty-name check,
error wrapping, and the reinterpretation of each response bucket as a
snapshot entry (`Name` and `Version` are both `lower(b.Name, "")`, `Bucket`
is the call's bucket argument). -/
def ListBucketSnapshots (bucket : String)
    (backing : Except GoError ListBucketsOutput) :
    Except GoError SnapshotList :=
  if bucket = "" then
    .error (.basic "simplestorage: bucket name required for bucket management operations")
  else
    match backing with
    | .error e =>
      .error (.wrap ("simplestorage: can't list snapshots for bucket " ++ bucket) e)
    | .ok resp =>
      .ok { Bucket := bucket
            Snapshots := resp.Buckets.map fun b =>
              { Name := lower b.Name ""
                Version := lower b.Name ""
                Created := lower b.CreationDate 0
                Bucket := bucket } }

end SimpleStorage

/-- C7: for a non-empty bucket name, a failed metadata fetch makes
`GetBucketInfo` return a record whose only populated field is the requested
name (all other fields at their zero values) with no error, and a
successful fetch yields a record carrying the four fork/snapshot fields of
the response. -/
theorem C7_get_bucket_info_fallback (bucket : String)
    (fetch : Except GoError Storage.HeadBucketForkOrSnapshotOutput)
    (hb : bucket ≠ "") :
    (∀ e, fetch = .error e →
      SimpleStorage.GetBucketInfo bucket fetch = .ok { Name := bucket }) ∧
    (∀ t, fetch = .ok t →
      SimpleStorage.GetBucketInfo bucket fetch
        = .ok { Name := bucket
                SnapshotsEnabled := t.SnapshotsEnabled
                IsForkParent := t.IsForkParent
                SourceBucket := t.SourceBucket
                SourceSnapshot := t.SourceBucketSnapshot }) := by
  constructor
  · intro e he
    simp [SimpleStorage.GetBucketInfo, hb, he]
  · intro t ht
    simp [SimpleStorage.GetBucketInfo, hb, ht]

/-- Closed witness for C7: a concrete failing fetch yields the name-only
record without an error, and a concrete successful fetch carries its four
fields over. -/
theorem C7_witness :
    SimpleStorage.GetBucketInfo "b" (.error (.basic "transport failure"))
      = .ok { Name := "b" } ∧
    SimpleStorage.GetBucketInfo "b"
        (.ok { SnapshotsEnabled := true, SourceBucket := "src",
               SourceBucketSnapshot := "v1", IsForkParent := false })
      = .ok { Name := "b", SnapshotsEnabled := true, IsForkParent := false,
              SourceBucket := "src", SourceSnapshot := "v1" } := by
  constructor
  · exact (C7_get_bucket_info_fallback "b" _ (by decide)).1 _ rfl
  · exact (C7_get_bucket_info_fallback "b" _ (by decide)).2 _ rfl

/-- C10: for a non-empty bucket argument and any backing listing response,
every entry of the returned `SnapshotList` has `Version` equal to `Name`
(both copied from the response bucket's name, defaulting to the empty
string when absent) and `Bucket` equal to the call's bucket argument, with
one entry per response bucket in order. -/
theorem C10_snapshot_version_equals_name (bucket : String)
    (resp : SimpleStorage.ListBucketsOutput) (hb : bucket ≠ "") :
    ∀ sl, SimpleStorage.ListBucketSnapshots bucket (.ok resp) = .ok sl →
      sl.Bucket = bucket ∧
      sl.Snapshots.length = resp.Buckets.length ∧
      (∀ s ∈ sl.Snapshots, s.Version = s.Name ∧ s.Bucket = bucket) ∧
      ∀ i : Fin resp.Buckets.length,
        ∃ h : i.val < sl.Snapshots.length,
          (sl.Snapshots.get ⟨i.val, h⟩).Name = SimpleStorage.lower (resp.Buckets.get i).Name "" ∧
          (sl.Snapshots.get ⟨i.val, h⟩).Version = SimpleStorage.lower (resp.Buckets.get i).Name "" := by
  intro sl hsl
  rw [SimpleStorage.ListBucketSnapshots, if_neg hb] at hsl
  obtain rfl := Except.ok.inj hsl
  refine ⟨rfl, by simp, ?_, ?_⟩
  · intro s hs
    simp only [List.mem_map] at hs
    obtain ⟨b, _, hb2⟩ := hs
    rw [← hb2]
    exact ⟨rfl, rfl⟩
  · intro i
    refine ⟨by simp [i.isLt], ?_, ?_⟩ <;> simp

/-- Closed witness for C10: a two-bucket response (one with a name, one
without) yields exactly the snapshot list whose entries' versions equal
their names and whose bucket field is the argument. -/
theorem C10_witness :
    SimpleStorage.ListBucketSnapshots "b"
        (.ok { Buckets := [{ Name := some "snap-1", CreationDate := some 5 },
                           { Name := none }] })
      = .ok { Bucket := "b",
              Snapshots := [{ Name := "snap-1", Version := "snap-1",
                              Created := 5, Bucket := "b" },
                            { Name := "", Version := "", Created := 0,
                              Bucket := "b" }] } ∧
    ({ Bucket := "b",
       Snapshots := [{ Name := "snap-1", Version := "snap-1",
                       Created := 5, Bucket := "b" },
                     { Name := "", Version := "", Created := 0,
                       Bucket := "b" }] } : SimpleStorage.SnapshotList).Bucket = "b" ∧
    (∀ s ∈ ({ Bucket := "b",
              Snapshots := [{ Name := "snap-1", Version := "snap-1",
                              Created := 5, Bucket := "b" },
                            { Name := "", Version := "", Created := 0,
                              Bucket := "b" }] } : SimpleStorage.SnapshotList).Snapshots,
      s.Version = s.Name ∧ s.Bucket = "b") := by
  have h := C10_snapshot_version_equals_name "b"
      { Buckets := [{ Name := some "snap-1", CreationDate := some 5 },
                    { Name := none }] }
      (by decide)
      { Bucket := "b",
        Snapshots := [{ Name := "snap-1", Version := "snap-1",
                        Created := 5, Bucket := "b" },
                      { Name := "", Version := "", Created := 0,
                        Bucket := "b" }] }
      rfl
  exact ⟨rfl, h.1, h.2.2.1⟩

namespace SimpleStorage

/-- The message of `simplestorage.ErrBucketNotFound`
("returned when a bucket operation fails because the bucket doesn't exist"
per its doc comment). -/
def errBucketNotFoundMsg : String := "simplestorage: bucket not found"

/-- `simplestorage.ErrBucketNotFound`, created by `errors.New`. -/
def ErrBucketNotFound : GoError := .sentinel errBucketNotFoundMsg

/-- The message of `simplestorage.ErrBucketNotEmpty`
("returned when trying to delete a non-empty bucket without ForceDelete"
per its doc comment). -/
def errBucketNotEmptyMsg : String := "simplestorage: bucket not empty"

/-- `simplestorage.ErrBucketNotEmpty`, created by `errors.New`. -/
def ErrBucketNotEmpty : GoError := .sentinel errBucketNotEmptyMsg

/-- The message of `simplestorage.ErrSnapshotRequired`
("returned when a snapshot version is required but not provided" per its
doc comment). -/
def errSnapshotRequiredMsg : String :=
  "simplestorage: snapshot version required for this operation"

/-- `simplestorage.ErrSnapshotRequired`, created by `errors.New`. -/
def ErrSnapshotRequired : GoError := .sentinel errSnapshotRequiredMsg

end SimpleStorage

/-- C8: the four sentinels are exposed, and `ErrNoBucketName` is indeed
returned (inside the construction error's wrap chain) — but the other three
are unreachable: evaluated at the very inputs their doc comments promise
them for, the operations return only the wrapped backing-service error,
which does not `errors.Is`-match the sentinel. Deleting a non-empty bucket
without force surfaces the service's own error, not `ErrBucketNotEmpty`;
deleting a missing bucket surfaces the service's error, not
`ErrBucketNotFound`; and a snapshot-listing failure surfaces the service's
error, not `ErrSnapshotRequired` (no code path mentions these sentinels). -/
theorem C8_three_sentinels_unreachable :
    ((SimpleStorage.New {} []).1
      = .error (.wrap "simplestorage: can't create client"
          (.join [SimpleStorage.ErrNoBucketName])) ∧
      errorIs (.wrap "simplestorage: can't create client"
          (.join [SimpleStorage.ErrNoBucketName]))
        SimpleStorage.errNoBucketNameMsg = true) ∧
    ((SimpleStorage.DeleteBucket
        { listObjectsV2 := fun _ => .ok [],
          deleteObject := fun _ _ => .ok (),
          deleteBucket := fun _ => .error (.basic "api error BucketNotEmpty") }
        "full-bucket" []).2
      = .error (.wrap "simplestorage: can't delete bucket full-bucket"
          (.basic "api error BucketNotEmpty")) ∧
      errorIs (.wrap "simplestorage: can't delete bucket full-bucket"
          (.basic "api error BucketNotEmpty"))
        SimpleStorage.errBucketNotEmptyMsg = false) ∧
    ((SimpleStorage.DeleteBucket
        { listObjectsV2 := fun _ => .ok [],
          deleteObject := fun _ _ => .ok (),
          deleteBucket := fun _ => .error (.basic "api error NoSuchBucket") }
        "missing-bucket" []).2
      = .error (.wrap "simplestorage: can't delete bucket missing-bucket"
          (.basic "api error NoSuchBucket")) ∧
      errorIs (.wrap "simplestorage: can't delete bucket missing-bucket"
          (.basic "api error NoSuchBucket"))
        SimpleStorage.errBucketNotFoundMsg = false) ∧
    (SimpleStorage.ListBucketSnapshots "b" (.error (.basic "api error SnapshotRequired"))
      = .error (.wrap "simplestorage: can't list snapshots for bucket b"
          (.basic "api error SnapshotRequired")) ∧
      errorIs (.wrap "simplestorage: can't list snapshots for bucket b"
          (.basic "api error SnapshotRequired"))
        SimpleStorage.errSnapshotRequiredMsg = false) := by
  refine ⟨⟨?_, ?_⟩, ⟨?_, ?_⟩, ⟨?_, ?_⟩, ⟨?_, ?_⟩⟩ <;> rfl

namespace TigrisHeaders

/-- The unreserved bytes of Go's `net/url` `shouldEscape` for query
components: ASCII letters, digits, and `- _ . ~` are kept verbatim. -/
def isUnreserved (c : Char) : Bool :=
  decide ((0x61 ≤ c.toNat ∧ c.toNat ≤ 0x7A) ∨ (0x41 ≤ c.toNat ∧ c.toNat ≤ 0x5A) ∨
    (0x30 ≤ c.toNat ∧ c.toNat ≤ 0x39) ∨
    c.toNat = 0x2D ∨ c.toNat = 0x5F ∨ c.toNat = 0x2E ∨ c.toNat = 0x7E)

/-- The UTF-8 bytes of one character (Go strings are UTF-8; `QueryEscape`
walks the string byte by byte, so a multi-byte character contributes each
of its bytes). -/
def utf8Bytes (c : Char) : List Nat :=
  let n := c.toNat
  if n < 0x80 then [n]
  else if n < 0x800 then [0xC0 + n / 0x40, 0x80 + n % 0x40]
  else if n < 0x10000 then
    [0xE0 + n / 0x1000, 0x80 + n / 0x40 % 0x40, 0x80 + n % 0x40]
  else
    [0xF0 + n / 0x40000, 0x80 + n / 0x1000 % 0x40, 0x80 + n / 0x40 % 0x40,
      0x80 + n % 0x40]

/-- The upper-case hexadecimal digit table `"0123456789ABCDEF"` used by
Go's percent-escaping. -/
def hexDigit : Nat → Char
  | 0 => '0' | 1 => '1' | 2 => '2' | 3 => '3' | 4 => '4' | 5 => '5' | 6 => '6'
  | 7 => '7' | 8 => '8' | 9 => '9' | 10 => 'A' | 11 => 'B' | 12 => 'C'
  | 13 => 'D' | 14 => 'E' | 15 => 'F' | _ + 16 => '0'

/-- The percent-encoding `%XX` of one byte. -/
def pct (b : Nat) : List Char :=
  ['%', hexDigit (b / 16), hexDigit (b % 16)]

/-- How `url.QueryEscape` renders one character: unreserved bytes stand for
themselves, the space becomes `+`, and every other byte of the character's
UTF-8 form is percent-encoded. -/
def escapeChar (c : Char) : List Char :=
  if isUnreserved c then [c]
  else if c = ' ' then ['+']
  else (utf8Bytes c).flatMap pct

/-- Go's `url.QueryEscape`. -/
def queryEscape (s : String) : String :=
  ⟨s.data.flatMap escapeChar⟩

/-- `tigrisheaders.WithHeader(key, value)`: the header pair the returned
request decorator adds. -/
def WithHeader (key value : String) : String × String := (key, value)

/-- `tigrisheaders.WithTakeSnapshot(desc)`: the `X-Tigris-Snapshot` header
valued `fmt.Sprintf("true; name=%s", url.QueryEscape(desc))`. -/
def WithTakeSnapshot (desc : String) : String × String :=
  WithHeader "X-Tigris-Snapshot" ("true; name=" ++ queryEscape desc)

end TigrisHeaders

namespace Storage

/-- The S3 calls issued by the `storage.Client` facade methods, carrying
the Tigris header annotations their option decorators add. -/
inductive S3Call where
  | createBucket (bucket : String) (headers : List (String × String))
deriving Repr, DecidableEq

/-- `storage.Client.CreateBucketSnapshot` from client.go: appends
`tigrisheaders.WithTakeSnapshot(description)` to the caller's decorators
and issues the single underlying `CreateBucket` call. -/
def CreateBucketSnapshot (description bucket : String)
    (opts : List (String × String)) : List S3Call :=
  [.createBucket bucket (opts ++ [TigrisHeaders.WithTakeSnapshot description])]

end Storage

example : TigrisHeaders.queryEscape "Backup; α" = "Backup%3B+%CE%B1" := by decide
example : TigrisHeaders.queryEscape "a-b_c.~" = "a-b_c.~" := by decide
example : TigrisHeaders.queryEscape "€" = "%E2%82%AC" := by decide

namespace TigrisHeaders

/-- Tokens of a query-escaped string: a bare unreserved character, the plus
sign standing for one escaped space, or one percent-encoded byte. -/
inductive EscTok where
  | raw (c : Char)
  | plus
  | byte (b : Nat)
deriving Repr, DecidableEq

/-- Value of one upper-case hexadecimal digit character. -/
def fromHexDigit (c : Char) : Option Nat :=
  if c = '0' then some 0 else if c = '1' then some 1 else if c = '2' then some 2
  else if c = '3' then some 3 else if c = '4' then some 4 else if c = '5' then some 5
  else if c = '6' then some 6 else if c = '7' then some 7 else if c = '8' then some 8
  else if c = '9' then some 9 else if c = 'A' then some 10 else if c = 'B' then some 11
  else if c = 'C' then some 12 else if c = 'D' then some 13 else if c = 'E' then some 14
  else if c = 'F' then some 15 else none

/-- Tokenizer of an escaped string: `%XX` becomes one byte token, `+` the
plus token, anything else a raw character token. -/
def lexEsc : List Char → Option (List EscTok)
  | [] => some []
  | c :: rest =>
    if c = '%' then
      match rest with
      | h :: l :: rest2 =>
        match fromHexDigit h, fromHexDigit l with
        | some hi, some lo => (lexEsc rest2).map fun ts => .byte (16 * hi + lo) :: ts
        | _, _ => none
      | _ => none
    else if c = '+' then (lexEsc rest).map fun ts => .plus :: ts
    else (lexEsc rest).map fun ts => .raw c :: ts

/-- Continuation of a 2-byte UTF-8 sequence with leading byte `b`. -/
def decodeCont1 (b : Nat) : List EscTok → Option (Char × List EscTok)
  | .byte b2 :: ts2 => some (Char.ofNat ((b - 0xC0) * 0x40 + (b2 - 0x80)), ts2)
  | _ => none

/-- Continuation of a 3-byte UTF-8 sequence with leading byte `b`. -/
def decodeCont2 (b : Nat) : List EscTok → Option (Char × List EscTok)
  | .byte b2 :: .byte b3 :: ts2 =>
    some (Char.ofNat ((b - 0xE0) * 0x1000 + (b2 - 0x80) * 0x40 + (b3 - 0x80)), ts2)
  | _ => none

/-- Continuation of a 4-byte UTF-8 sequence with leading byte `b`. -/
def decodeCont3 (b : Nat) : List EscTok → Option (Char × List EscTok)
  | .byte b2 :: .byte b3 :: .byte b4 :: ts2 =>
    some (Char.ofNat ((b - 0xF0) * 0x40000 + (b2 - 0x80) * 0x1000 +
      (b3 - 0x80) * 0x40 + (b4 - 0x80)), ts2)
  | _ => none

/-- Decoder for the first character of a token list: a raw token or a plus
decodes to itself, and a byte token opens a 1-, 2-, 3- or 4-byte UTF-8
sequence according to its leading-byte range. Returns the character and the
remaining tokens. -/
def decodeOne : List EscTok → Option (Char × List EscTok)
  | [] => none
  | .raw c :: ts => some (c, ts)
  | .plus :: ts => some (' ', ts)
  | .byte b :: ts =>
    if b < 0x80 then some (Char.ofNat b, ts)
    else if b < 0xE0 then decodeCont1 b ts
    else if b < 0xF0 then decodeCont2 b ts
    else decodeCont3 b ts

/-- The token sequence one source character escapes to. -/
def tokensOf (c : Char) : List EscTok :=
  if isUnreserved c then [.raw c]
  else if c = ' ' then [.plus]
  else (utf8Bytes c).map .byte

end TigrisHeaders

/-- Every Unicode scalar value is below 0x110000. -/
theorem char_toNat_lt (c : Char) : c.toNat < 1114112 := by
  have h := c.valid
  simp only [Char.toNat]
  rcases h with h | h <;> omega

/-- The UTF-8 bytes of a character are bytes. -/
theorem utf8Bytes_lt (c : Char) : ∀ b ∈ TigrisHeaders.utf8Bytes c, b < 256 := by
  have hc := char_toNat_lt c
  intro b hb
  by_cases h1 : c.toNat < 0x80
  · simp [TigrisHeaders.utf8Bytes, h1] at hb
    omega
  · by_cases h2 : c.toNat < 0x800
    · simp [TigrisHeaders.utf8Bytes, h1, h2] at hb
      rcases hb with hb | hb <;> omega
    · by_cases h3 : c.toNat < 0x10000
      · simp [TigrisHeaders.utf8Bytes, h1, h2, h3] at hb
        rcases hb with hb | hb | hb <;> omega
      · simp [TigrisHeaders.utf8Bytes, h1, h2, h3] at hb
        rcases hb with hb | hb | hb | hb <;> omega

/-- Reading back the hexadecimal digit character of a value below 16. -/
theorem fromHex_hexDigit (d : Nat) (hd : d < 16) :
    TigrisHeaders.fromHexDigit (TigrisHeaders.hexDigit d) = some d := by
  interval_cases d <;> rfl

/-- An unreserved character is ASCII and is none of the characters the
escaping gives a special meaning (or that would break the header value). -/
theorem isUnreserved_props (c : Char) (h : TigrisHeaders.isUnreserved c = true) :
    c.toNat < 0x80 ∧ c ≠ '%' ∧ c ≠ '+' ∧ c ≠ ' ' ∧ c ≠ ';' := by
  have hp := of_decide_eq_true h
  refine ⟨by omega, ?_, ?_, ?_, ?_⟩ <;>
    (intro he; subst he; exact absurd hp (by decide))

/-- The tokenizer turns one percent-encoded byte back into its byte token. -/
theorem lex_pct (b : Nat) (hb : b < 256) (rest : List Char) :
    TigrisHeaders.lexEsc (TigrisHeaders.pct b ++ rest)
      = (TigrisHeaders.lexEsc rest).map fun ts => .byte b :: ts := by
  have h1 : TigrisHeaders.fromHexDigit (TigrisHeaders.hexDigit (b / 16)) = some (b / 16) :=
    fromHex_hexDigit _ (by omega)
  have h2 : TigrisHeaders.fromHexDigit (TigrisHeaders.hexDigit (b % 16)) = some (b % 16) :=
    fromHex_hexDigit _ (by omega)
  have hb16 : 16 * (b / 16) + b % 16 = b := by omega
  simp [TigrisHeaders.pct, TigrisHeaders.lexEsc, h1, h2, hb16]

/-- The tokenizer turns a run of percent-encoded bytes back into their byte
tokens. -/
theorem lex_flatMap_pct (bs : List Nat) (h : ∀ b ∈ bs, b < 256) (rest : List Char) :
    TigrisHeaders.lexEsc (bs.flatMap TigrisHeaders.pct ++ rest)
      = (TigrisHeaders.lexEsc rest).map fun ts => bs.map .byte ++ ts := by
  induction bs with
  | nil => simp
  | cons b bs ih =>
    have hb : b < 256 := h b (by simp)
    have ih2 := ih (fun b2 hb2 => h b2 (by simp [hb2]))
    rw [List.flatMap_cons, List.append_assoc, lex_pct b hb, ih2, Option.map_map]
    rfl

/-- The tokenizer recovers the token sequence of each escaped character. -/
theorem lex_escapeChar (c : Char) (rest : List Char) :
    TigrisHeaders.lexEsc (TigrisHeaders.escapeChar c ++ rest)
      = (TigrisHeaders.lexEsc rest).map fun ts => TigrisHeaders.tokensOf c ++ ts := by
  by_cases hu : TigrisHeaders.isUnreserved c = true
  · obtain ⟨_, hpc, hplus, _, _⟩ := isUnreserved_props c hu
    rw [show TigrisHeaders.escapeChar c = [c] by simp [TigrisHeaders.escapeChar, hu],
      List.singleton_append, TigrisHeaders.lexEsc.eq_def]
    simp [TigrisHeaders.tokensOf, hu, hpc, hplus]
  · by_cases hsp : c = ' '
    · subst hsp
      rw [show TigrisHeaders.escapeChar ' ' = ['+'] by
          simp [TigrisHeaders.escapeChar, hu],
        List.singleton_append, TigrisHeaders.lexEsc.eq_def]
      simp [TigrisHeaders.tokensOf, hu]
    · rw [show TigrisHeaders.escapeChar c = (TigrisHeaders.utf8Bytes c).flatMap TigrisHeaders.pct by
        simp [TigrisHeaders.escapeChar, hu, hsp]]
      rw [show TigrisHeaders.tokensOf c = (TigrisHeaders.utf8Bytes c).map .byte by
        simp [TigrisHeaders.tokensOf, hu, hsp]]
      exact lex_flatMap_pct _ (utf8Bytes_lt c) rest

/-- The tokenizer recovers the full token sequence of an escaped string. -/
theorem lex_escape (l : List Char) :
    TigrisHeaders.lexEsc (l.flatMap TigrisHeaders.escapeChar)
      = some (l.flatMap TigrisHeaders.tokensOf) := by
  induction l with
  | nil => rfl
  | cons c l ih =>
    rw [List.flatMap_cons, lex_escapeChar, ih, List.flatMap_cons]
    rfl

/-- The decoder recovers each escaped character (and the remaining token
list) from the front of its token sequence: the token encoding of a
character is prefix-free. -/
theorem decodeOne_tokensOf (c : Char) (ts : List TigrisHeaders.EscTok) :
    TigrisHeaders.decodeOne (TigrisHeaders.tokensOf c ++ ts) = some (c, ts) := by
  by_cases hu : TigrisHeaders.isUnreserved c = true
  · rw [show TigrisHeaders.tokensOf c = [.raw c] by simp [TigrisHeaders.tokensOf, hu]]
    rfl
  · by_cases hsp : c = ' '
    · subst hsp
      rw [show TigrisHeaders.tokensOf ' ' = [.plus] by
        simp [TigrisHeaders.tokensOf, hu]]
      rfl
    · rw [show TigrisHeaders.tokensOf c = (TigrisHeaders.utf8Bytes c).map .byte by
        simp [TigrisHeaders.tokensOf, hu, hsp]]
      have hofn := Char.ofNat_toNat c
      have hlt := char_toNat_lt c
      by_cases h1 : c.toNat < 0x80
      · rw [show TigrisHeaders.utf8Bytes c = [c.toNat] by
          simp [TigrisHeaders.utf8Bytes, h1]]
        rw [List.map_cons, List.map_nil, List.cons_append, List.nil_append]
        simp only [TigrisHeaders.decodeOne, h1, if_true, if_pos, hofn]
      · by_cases h2 : c.toNat < 0x800
        · rw [show TigrisHeaders.utf8Bytes c
              = [0xC0 + c.toNat / 0x40, 0x80 + c.toNat % 0x40] by
            simp [TigrisHeaders.utf8Bytes, h1, h2]]
          have hb1a : ¬(0xC0 + c.toNat / 0x40 < 0x80) := by omega
          have hb1b : 0xC0 + c.toNat / 0x40 < 0xE0 := by omega
          have harith : (0xC0 + c.toNat / 0x40 - 0xC0) * 0x40
              + (0x80 + c.toNat % 0x40 - 0x80) = c.toNat := by omega
          rw [List.map_cons, List.map_cons, List.map_nil, List.cons_append,
            List.cons_append, List.nil_append]
          simp only [TigrisHeaders.decodeOne, TigrisHeaders.decodeCont1, hb1a,
            if_false, hb1b, if_true, harith, hofn, if_neg, if_pos]
        · by_cases h3 : c.toNat < 0x10000
          · rw [show TigrisHeaders.utf8Bytes c
                = [0xE0 + c.toNat / 0x1000, 0x80 + c.toNat / 0x40 % 0x40,
                    0x80 + c.toNat % 0x40] by
              simp [TigrisHeaders.utf8Bytes, h1, h2, h3]]
            have hb1a : ¬(0xE0 + c.toNat / 0x1000 < 0x80) := by omega
            have hb1b : ¬(0xE0 + c.toNat / 0x1000 < 0xE0) := by omega
            have hb1c : 0xE0 + c.toNat / 0x1000 < 0xF0 := by omega
            have harith : (0xE0 + c.toNat / 0x1000 - 0xE0) * 0x1000
                + (0x80 + c.toNat / 0x40 % 0x40 - 0x80) * 0x40
                + (0x80 + c.toNat % 0x40 - 0x80) = c.toNat := by omega
            rw [List.map_cons, List.map_cons, List.map_cons, List.map_nil,
              List.cons_append, List.cons_append, List.cons_append, List.nil_append]
            simp only [TigrisHeaders.decodeOne, TigrisHeaders.decodeCont2, hb1a,
              hb1b, if_false, hb1c, if_true, harith, hofn, if_neg, if_pos]
          · rw [show TigrisHeaders.utf8Bytes c
                = [0xF0 + c.toNat / 0x40000, 0x80 + c.toNat / 0x1000 % 0x40,
                    0x80 + c.toNat / 0x40 % 0x40, 0x80 + c.toNat % 0x40] by
              simp [TigrisHeaders.utf8Bytes, h1, h2, h3]]
            have hb1a : ¬(0xF0 + c.toNat / 0x40000 < 0x80) := by omega
            have hb1b : ¬(0xF0 + c.toNat / 0x40000 < 0xE0) := by omega
            have hb1c : ¬(0xF0 + c.toNat / 0x40000 < 0xF0) := by omega
            have harith : (0xF0 + c.toNat / 0x40000 - 0xF0) * 0x40000
                + (0x80 + c.toNat / 0x1000 % 0x40 - 0x80) * 0x1000
                + (0x80 + c.toNat / 0x40 % 0x40 - 0x80) * 0x40
                + (0x80 + c.toNat % 0x40 - 0x80) = c.toNat := by omega
            rw [List.map_cons, List.map_cons, List.map_cons, List.map_cons,
              List.map_nil, List.cons_append, List.cons_append, List.cons_append,
              List.cons_append, List.nil_append]
            simp only [TigrisHeaders.decodeOne, TigrisHeaders.decodeCont3, hb1a,
              hb1b, hb1c, if_false, harith, hofn, if_neg, if_pos]

/-- No character escapes to an empty token sequence. -/
theorem tokensOf_ne_nil (c : Char) : TigrisHeaders.tokensOf c ≠ [] := by
  unfold TigrisHeaders.tokensOf
  by_cases hu : TigrisHeaders.isUnreserved c = true
  · simp [hu]
  · by_cases hsp : c = ' '
    · subst hsp
      decide
    · simp only [hu, hsp, if_false, ne_eq, List.map_eq_nil_iff]
      by_cases h1 : c.toNat < 0x80
      · simp [TigrisHeaders.utf8Bytes, h1]
      · by_cases h2 : c.toNat < 0x800
        · simp [TigrisHeaders.utf8Bytes, h1, h2]
        · by_cases h3 : c.toNat < 0x10000
          · simp [TigrisHeaders.utf8Bytes, h1, h2, h3]
          · simp [TigrisHeaders.utf8Bytes, h1, h2, h3]

/-- The token encoding of a string is injective (prefix-freeness plus
induction). -/
theorem flatMap_tokensOf_inj (l1 : List Char) : ∀ l2 : List Char,
    l1.flatMap TigrisHeaders.tokensOf = l2.flatMap TigrisHeaders.tokensOf → l1 = l2 := by
  induction l1 with
  | nil =>
    intro l2 h
    cases l2 with
    | nil => rfl
    | cons c l2 =>
      rw [List.flatMap_nil, List.flatMap_cons] at h
      exact absurd (List.append_eq_nil.mp h.symm).1 (tokensOf_ne_nil c)
  | cons c1 l1 ih =>
    intro l2 h
    cases l2 with
    | nil =>
      rw [List.flatMap_cons, List.flatMap_nil] at h
      exact absurd (List.append_eq_nil.mp h).1 (tokensOf_ne_nil c1)
    | cons c2 l2 =>
      rw [List.flatMap_cons, List.flatMap_cons] at h
      have hdec := congrArg TigrisHeaders.decodeOne h
      rw [decodeOne_tokensOf, decodeOne_tokensOf] at hdec
      have hpair := Option.some.inj hdec
      have hc : c1 = c2 := congrArg Prod.fst hpair
      have hrest : l1.flatMap TigrisHeaders.tokensOf = l2.flatMap TigrisHeaders.tokensOf :=
        congrArg Prod.snd hpair
      rw [hc, ih l2 hrest]

/-- `url.QueryEscape` is injective: two descriptions with the same escaped
form are equal, so the escaped header value round-trips. -/
theorem queryEscape_injective (d1 d2 : String)
    (h : TigrisHeaders.queryEscape d1 = TigrisHeaders.queryEscape d2) :
    d1 = d2 := by
  have hdata : d1.data.flatMap TigrisHeaders.escapeChar
      = d2.data.flatMap TigrisHeaders.escapeChar := congrArg String.data h
  have hlex : some (d1.data.flatMap TigrisHeaders.tokensOf)
      = some (d2.data.flatMap TigrisHeaders.tokensOf) := by
    rw [← lex_escape, ← lex_escape, hdata]
  have htoks := Option.some.inj hlex
  exact String.ext (flatMap_tokensOf_inj d1.data d2.data htoks)

/-- Hexadecimal digit characters are ASCII and are neither a space nor a
semicolon. -/
theorem hexDigit_props (n : Nat) (hn : n < 16) :
    (TigrisHeaders.hexDigit n).toNat < 0x80 ∧ TigrisHeaders.hexDigit n ≠ ' '
      ∧ TigrisHeaders.hexDigit n ≠ ';' := by
  interval_cases n <;> decide

/-- Every character of an escaped string is ASCII and is neither a space
nor a semicolon, so the escaped description cannot collide with the header
value's `"true; name="` framing. -/
theorem queryEscape_charset (s : String) :
    ∀ c ∈ (TigrisHeaders.queryEscape s).data, c.toNat < 0x80 ∧ c ≠ ' ' ∧ c ≠ ';' := by
  intro c hc
  have hc2 : c ∈ s.data.flatMap TigrisHeaders.escapeChar := hc
  rw [List.mem_flatMap] at hc2
  obtain ⟨ch, _, hcesc⟩ := hc2
  unfold TigrisHeaders.escapeChar at hcesc
  by_cases hu : TigrisHeaders.isUnreserved ch = true
  · rw [if_pos hu] at hcesc
    simp only [List.mem_singleton] at hcesc
    subst hcesc
    obtain ⟨ha, _, _, hsp2, hsemi⟩ := isUnreserved_props c hu
    exact ⟨ha, hsp2, hsemi⟩
  · rw [if_neg hu] at hcesc
    by_cases hsp : ch = ' '
    · rw [if_pos hsp] at hcesc
      simp only [List.mem_singleton] at hcesc
      subst hcesc
      decide
    · rw [if_neg hsp, List.mem_flatMap] at hcesc
      obtain ⟨b, hb, hcp⟩ := hcesc
      have hb256 := utf8Bytes_lt ch b hb
      unfold TigrisHeaders.pct at hcp
      simp only [List.mem_cons, List.mem_singleton, List.not_mem_nil, or_false] at hcp
      rcases hcp with rfl | rfl | rfl
      · decide
      · exact hexDigit_props _ (by omega)
      · exact hexDigit_props _ (by omega)

/-- C9: for every description, `CreateBucketSnapshot` issues exactly one
bucket-creation call, annotated with the take-snapshot header whose value
is `"true; name="` followed by the query-escaped description; the escaped
description is ASCII with no spaces or semicolons (a single well-formed
header value) and the escaping is injective, so every description —
including ones with spaces, semicolons, or unicode — round-trips into that
header value. -/
theorem C9_snapshot_header_escaped (description bucket : String)
    (opts : List (String × String)) :
    (Storage.CreateBucketSnapshot description bucket opts
      = [.createBucket bucket
          (opts ++ [("X-Tigris-Snapshot",
            "true; name=" ++ TigrisHeaders.queryEscape description)])]) ∧
    (∀ c ∈ (TigrisHeaders.queryEscape description).data,
      c.toNat < 0x80 ∧ c ≠ ' ' ∧ c ≠ ';') ∧
    (∀ d2 : String,
      TigrisHeaders.queryEscape description = TigrisHeaders.queryEscape d2 →
        description = d2) :=
  ⟨rfl, queryEscape_charset description, fun _ h => queryEscape_injective _ _ h⟩

/-- Closed witness for C9: a description with a space, a semicolon and a
non-ASCII character yields the single concrete header value
`true; name=Backup%3B+%CE%B1`, whose escaped part is clean ASCII, and the
escaping identity instantiates trivially. -/
theorem C9_witness :
    Storage.CreateBucketSnapshot "Backup; α" "b" []
      = [.createBucket "b"
          [("X-Tigris-Snapshot", "true; name=Backup%3B+%CE%B1")]] ∧
    (∀ c ∈ (TigrisHeaders.queryEscape "Backup; α").data,
      c.toNat < 0x80 ∧ c ≠ ' ' ∧ c ≠ ';') ∧
    "Backup; α" = "Backup; α" := by
  have h := C9_snapshot_header_escaped "Backup; α" "b" []
  refine ⟨?_, h.2.1, h.2.2 "Backup; α" rfl⟩
  rw [h.1]
  decide
